import Mathlib

/-!
# FinConnect backend — verification of the request-authorization pipeline
# and subscription lifecycle

Shallow embedding of the FinConnect backend (FinDevPortal variant):

* `server/storage.ts` (`SQLiteStorage`) — the subscription ledger and the
  transactions table, modelled as in-memory lists with an AUTOINCREMENT
  counter (`Ledger.nextId`).  SQLite's `SELECT ... WHERE user_id=? AND
  active=1` without `ORDER BY` returns rows in rowid (insertion) order,
  matching `List.find?` over the insertion-ordered list (the `MemStorage`
  implementation in the same file uses exactly `Array.find` over insertion
  order).
* `server/routes.ts` — the subscribe / cancel / webhook / payment-status /
  transactions handlers.
* `server/middleware.ts` — `rateLimit` and `checkSubscription`.
* `server/auth.ts` — `generateToken` and the `authenticate` middleware.

Timestamps are naturals (JS `Date.now()` milliseconds for the rate limiter,
JWT seconds for the token service); the claims do not mix the two clocks.
JSON string-to-number conversion (`parseInt`) is modelled by carrying the
parsed numeric value as `Option Int` / `Option Nat` (`none` = absent or
non-numeric, i.e. `NaN`); JS treats both `NaN` and `0` as falsy in the
`parseInt(x) || d` idiom and that is modelled explicitly at each use site.
-/

/-- A row of the `subscriptions` table
(storage.ts: `id, user_id, plan, active, start_date, end_date, created_at`).
`createdAt` is omitted: every code path sets it to the row-creation time and
no handler ever reads it. -/
structure Subscription where
  id : Nat
  userId : Nat
  plan : String
  active : Bool
  startDate : Nat
  endDate : Option Nat
  deriving DecidableEq, Repr

/-- The subscriptions table plus SQLite's AUTOINCREMENT counter. -/
structure Ledger where
  subs : List Subscription
  nextId : Nat
  deriving DecidableEq, Repr

/-- The empty ledger (fresh database, `initializeDatabase` drops the table). -/
def Ledger.empty : Ledger := { subs := [], nextId := 1 }

/-- The `WHERE user_id = ? AND active = 1` clause of
`getActiveSubscriptionByUserId`, shared by the row lookup and by the
active-row count used to state the invariant. -/
def activeFor (userId : Nat) (s : Subscription) : Bool :=
  decide (s.userId = userId) && s.active

/-- storage.ts `getActiveSubscriptionByUserId`:
`SELECT * FROM subscriptions WHERE user_id = ? AND active = 1` (first row). -/
def getActiveSubscriptionByUserId (userId : Nat) (l : Ledger) : Option Subscription :=
  l.subs.find? (activeFor userId)

/-- storage.ts `createSubscription`: INSERT returning the new row with
`lastInsertRowid`; `active` defaults to `true` when not supplied, all call
sites in routes.ts pass `active: true, endDate: undefined`. -/
def createSubscription (userId : Nat) (plan : String) (active : Bool)
    (startDate : Nat) (endDate : Option Nat) (l : Ledger) : Subscription × Ledger :=
  let s : Subscription :=
    { id := l.nextId, userId := userId, plan := plan, active := active,
      startDate := startDate, endDate := endDate }
  (s, { subs := l.subs ++ [s], nextId := l.nextId + 1 })

/-- The `UPDATE subscriptions SET active = 0, end_date = ? WHERE id = ?`
part of storage.ts `cancelSubscription`. -/
def deactivateById (id : Nat) (now : Nat) (subs : List Subscription) : List Subscription :=
  subs.map (fun s => if s.id = id then { s with active := false, endDate := some now } else s)

/-- storage.ts `cancelSubscription`: looks the row up first and throws
`Subscription not found` when absent; otherwise runs the UPDATE and returns
the updated record. -/
def cancelSubscription (id : Nat) (now : Nat) (l : Ledger) :
    Except String (Subscription × Ledger) :=
  match l.subs.find? (fun s => decide (s.id = id)) with
  | none => .error "Subscription not found"
  | some s =>
      .ok ({ s with active := false, endDate := some now },
           { l with subs := deactivateById id now l.subs })

/-- Outcome of routes.ts `POST /api/subscriptions/subscribe`. -/
inductive SubscribeOut where
  /-- 400 `User already has an active subscription` -/
  | conflict
  /-- 201 `Subscription created successfully` -/
  | created (s : Subscription)
  deriving DecidableEq, Repr

/-- routes.ts `POST /api/subscriptions/subscribe` (after the zod parse):
refuse when an active subscription exists, else create an active row. -/
def subscribeOp (userId : Nat) (plan : String) (now : Nat) (l : Ledger) :
    SubscribeOut × Ledger :=
  match getActiveSubscriptionByUserId userId l with
  | some _ => (.conflict, l)
  | none =>
      let (s, l') := createSubscription userId plan true now none l
      (.created s, l')

/-- Outcome of routes.ts `POST /api/subscriptions/cancel`. -/
inductive CancelOut where
  /-- 404 `No active subscription found` -/
  | noneFound
  /-- 200 `Subscription canceled successfully` -/
  | canceled (s : Subscription)
  deriving DecidableEq, Repr

/-- routes.ts `POST /api/subscriptions/cancel`: fetch the caller's active
subscription, 404 when absent, else cancel it. -/
def cancelOp (userId : Nat) (now : Nat) (l : Ledger) : CancelOut × Ledger :=
  match getActiveSubscriptionByUserId userId l with
  | none => (.noneFound, l)
  | some s =>
      match cancelSubscription s.id now l with
      | .error _ => (.noneFound, l)
      | .ok (s', l') => (.canceled s', l')

/-- The payment-success reconciliation shared by the webhook handler
(routes.ts lines 162–191) and the payment-status poll (lines 100–123):
cancel the existing active subscription when there is one, then create the
new active row.  A storage error aborts the remaining mutations (it is
caught by the surrounding `try`). -/
def reconcilePaymentSuccess (userId : Nat) (plan : String) (now : Nat) (l : Ledger) : Ledger :=
  match getActiveSubscriptionByUserId userId l with
  | some existing =>
      match cancelSubscription existing.id now l with
      | .error _ => l
      | .ok (_, l') => (createSubscription userId plan true now none l').2
  | none => (createSubscription userId plan true now none l).2

/-- The sequential single-ledger operations named by the subscription
invariant: user subscribe, user cancel, and payment reconciliation
(webhook delivery or payment-status poll). -/
inductive LifecycleOp where
  | subscribe (userId : Nat) (plan : String) (now : Nat)
  | cancel (userId : Nat) (now : Nat)
  | reconcile (userId : Nat) (plan : String) (now : Nat)
  deriving DecidableEq, Repr

/-- Apply one lifecycle operation to the ledger. -/
def applyLifecycleOp (l : Ledger) (op : LifecycleOp) : Ledger :=
  match op with
  | .subscribe u p now => (subscribeOp u p now l).2
  | .cancel u now => (cancelOp u now l).2
  | .reconcile u p now => reconcilePaymentSuccess u p now l

/-- Run a sequence of lifecycle operations from a starting ledger. -/
def runLifecycle (ops : List LifecycleOp) (l : Ledger) : Ledger :=
  ops.foldl applyLifecycleOp l

/-- Number of rows with `active = true` belonging to a user. -/
def countActive (userId : Nat) (l : Ledger) : Nat :=
  (l.subs.filter (activeFor userId)).length

/-! ## Counting lemmas for the at-most-one-active invariant -/

/-- Mapping a function that can only turn matching elements into
non-matching ones never increases the number of matches. -/
lemma length_filter_map_le {α : Type} (p : α → Bool) (f : α → α)
    (hf : ∀ x, p (f x) = true → p x = true) :
    ∀ l : List α, ((l.map f).filter p).length ≤ (l.filter p).length := by
  intro l
  induction l with
  | nil => simp
  | cons x xs ih =>
    simp only [List.map_cons, List.filter_cons]
    by_cases h : p (f x) = true
    · have hx := hf x h
      simp [h, hx]
      omega
    · by_cases h2 : p x = true
      · simp [h, h2]
        omega
      · simp [h, h2]
        exact ih

/-- If some matching element is turned into a non-matching one by the map,
the number of matches strictly drops. -/
lemma length_filter_map_hit {α : Type} (p : α → Bool) (f : α → α)
    (hf : ∀ x, p (f x) = true → p x = true) (s : α) :
    ∀ l : List α, s ∈ l → p s = true → p (f s) = false →
      ((l.map f).filter p).length + 1 ≤ (l.filter p).length := by
  intro l
  induction l with
  | nil => intro h; cases h
  | cons x xs ih =>
    intro hmem hps hpfs
    simp only [List.map_cons, List.filter_cons]
    rcases List.mem_cons.mp hmem with hx | hx
    · subst hx
      simp [hpfs, hps]
      have := length_filter_map_le p f hf xs
      omega
    · by_cases h : p (f x) = true
      · have hx' := hf x h
        simp [h, hx']
        exact ih hx hps hpfs
      · have hxs := ih hx hps hpfs
        by_cases h2 : p x = true
        · simp [h, h2]
          omega
        · simp [h, h2]
          exact hxs

/-- The deactivation map can only turn active rows inactive, never the
reverse. -/
lemma activeFor_deactivate_mono (u i now : Nat) :
    ∀ x : Subscription,
      activeFor u (if x.id = i then { x with active := false, endDate := some now } else x) = true →
      activeFor u x = true := by
  intro x h
  by_cases hx : x.id = i
  · simp [hx, activeFor] at h
  · simpa [hx] using h

/-- `deactivateById` never increases the active count of any user. -/
lemma countActive_deactivateById_le (u i now : Nat) (subs : List Subscription) :
    ((deactivateById i now subs).filter (activeFor u)).length
      ≤ (subs.filter (activeFor u)).length :=
  length_filter_map_le _ _ (activeFor_deactivate_mono u i now) subs

/-- `deactivateById` strictly drops the active count of `u` when the list
holds an active row of `u` with the targeted id. -/
lemma countActive_deactivateById_hit (u i now : Nat) (subs : List Subscription)
    (s : Subscription) (hmem : s ∈ subs) (hid : s.id = i)
    (hact : activeFor u s = true) :
    ((deactivateById i now subs).filter (activeFor u)).length + 1
      ≤ (subs.filter (activeFor u)).length := by
  refine length_filter_map_hit _ _ (activeFor_deactivate_mono u i now) s subs hmem hact ?_
  simp [hid, activeFor]

/-- No active row found means the user's active count is zero. -/
lemma countActive_eq_zero_of_find_none {u : Nat} {l : Ledger}
    (h : getActiveSubscriptionByUserId u l = none) : countActive u l = 0 := by
  unfold getActiveSubscriptionByUserId at h
  rw [List.find?_eq_none] at h
  unfold countActive
  rw [List.length_eq_zero, List.filter_eq_nil_iff]
  exact h

/-- A found active row means the user's active count is positive. -/
lemma countActive_pos_of_find_some {u : Nat} {l : Ledger} {s : Subscription}
    (h : getActiveSubscriptionByUserId u l = some s) : 1 ≤ countActive u l := by
  unfold getActiveSubscriptionByUserId at h
  have hmem : s ∈ l.subs := List.mem_of_find?_eq_some h
  have hact : activeFor u s = true := List.find?_some h
  have : s ∈ l.subs.filter (activeFor u) := List.mem_filter.mpr ⟨hmem, hact⟩
  have := List.length_pos.mpr (List.ne_nil_of_mem this)
  unfold countActive
  omega

/-- Creating an active row for `u` adds exactly one to `u`'s active count
and nothing to anyone else's. -/
lemma countActive_createSubscription (u' u : Nat) (p : String) (now : Nat)
    (ed : Option Nat) (l : Ledger) :
    countActive u' (createSubscription u p true now ed l).2
      = countActive u' l + (if u' = u then 1 else 0) := by
  by_cases h : u' = u
  · subst h
    simp [countActive, createSubscription, List.filter_append, activeFor]
  · have h' : ¬u = u' := fun e => h e.symm
    simp [countActive, createSubscription, List.filter_append, activeFor, h, h']

/-- Inversion of a successful `cancelSubscription`: the resulting ledger is
the deactivation update, with the id counter untouched. -/
lemma cancelSubscription_ok_eq {i now : Nat} {l : Ledger} {s' : Subscription}
    {l' : Ledger} (h : cancelSubscription i now l = .ok (s', l')) :
    l' = { subs := deactivateById i now l.subs, nextId := l.nextId } := by
  unfold cancelSubscription at h
  cases hfind : l.subs.find? (fun s => decide (s.id = i)) with
  | none => rw [hfind] at h; cases h
  | some s => rw [hfind] at h; cases h; rfl

/-- `cancelSubscription` succeeds whenever a row with the id is present. -/
lemma cancelSubscription_isOk_of_mem {i now : Nat} {l : Ledger}
    {s : Subscription} (hmem : s ∈ l.subs) (hid : s.id = i) :
    ∃ s' l', cancelSubscription i now l = .ok (s', l') := by
  unfold cancelSubscription
  cases hfind : l.subs.find? (fun s => decide (s.id = i)) with
  | none =>
      exfalso
      rw [List.find?_eq_none] at hfind
      have hh := hfind s hmem
      simp [hid] at hh
  | some t => exact ⟨_, _, rfl⟩

/-- `countActive` seen through the `subs` field, for rewriting. -/
lemma countActive_def (u : Nat) (l : Ledger) :
    countActive u l = (l.subs.filter (activeFor u)).length := rfl

/-- Each lifecycle operation preserves the at-most-one-active invariant. -/
lemma inv_applyLifecycleOp (l : Ledger) (op : LifecycleOp)
    (h : ∀ u, countActive u l ≤ 1) :
    ∀ u, countActive u (applyLifecycleOp l op) ≤ 1 := by
  intro u
  cases op with
  | subscribe v p now =>
    cases hf : getActiveSubscriptionByUserId v l with
    | some s => simp only [applyLifecycleOp, subscribeOp, hf]; exact h u
    | none =>
      simp only [applyLifecycleOp, subscribeOp, hf]
      rw [countActive_createSubscription]
      by_cases hu : u = v
      · subst hu
        rw [countActive_eq_zero_of_find_none hf]
        simp
      · simp only [hu, if_neg, Nat.add_zero]
        exact h u
  | cancel v now =>
    cases hf : getActiveSubscriptionByUserId v l with
    | none => simp only [applyLifecycleOp, cancelOp, hf]; exact h u
    | some s =>
      cases hc : cancelSubscription s.id now l with
      | error e => simp only [applyLifecycleOp, cancelOp, hf, hc]; exact h u
      | ok pair =>
        obtain ⟨s', l'⟩ := pair
        simp only [applyLifecycleOp, cancelOp, hf, hc]
        have hl' := cancelSubscription_ok_eq hc
        subst hl'
        have hle := countActive_deactivateById_le u s.id now l.subs
        have hu := h u
        rw [countActive_def] at hu ⊢
        simp only [] at hle ⊢
        omega
  | reconcile v p now =>
    cases hf : getActiveSubscriptionByUserId v l with
    | none =>
      simp only [applyLifecycleOp, reconcilePaymentSuccess, hf]
      rw [countActive_createSubscription]
      by_cases hu : u = v
      · subst hu
        rw [countActive_eq_zero_of_find_none hf]
        simp
      · simp only [hu, if_neg, Nat.add_zero]
        exact h u
    | some s =>
      cases hc : cancelSubscription s.id now l with
      | error e => simp only [applyLifecycleOp, reconcilePaymentSuccess, hf, hc]; exact h u
      | ok pair =>
        obtain ⟨s', l'⟩ := pair
        simp only [applyLifecycleOp, reconcilePaymentSuccess, hf, hc]
        have hl' := cancelSubscription_ok_eq hc
        subst hl'
        rw [countActive_createSubscription]
        have hle := countActive_deactivateById_le u s.id now l.subs
        by_cases hu : u = v
        · subst hu
          have hmem : s ∈ l.subs := List.mem_of_find?_eq_some hf
          have hact : activeFor u s = true := List.find?_some hf
          have hhit := countActive_deactivateById_hit u s.id now l.subs s hmem rfl hact
          have h1 := h u
          rw [if_pos rfl]
          rw [countActive_def] at h1 ⊢
          simp only [] at hhit ⊢
          omega
        · rw [if_neg hu, Nat.add_zero]
          have h1 := h u
          rw [countActive_def] at h1 ⊢
          simp only [] at hle ⊢
          omega

/-- The invariant holds along every sequential run from any ledger that
satisfies it. -/
lemma inv_runLifecycle (ops : List LifecycleOp) (l : Ledger)
    (h : ∀ u, countActive u l ≤ 1) :
    ∀ u, countActive u (runLifecycle ops l) ≤ 1 := by
  induction ops generalizing l with
  | nil => exact h
  | cons op ops ih => exact ih _ (inv_applyLifecycleOp l op h)

/-- The empty ledger trivially satisfies the invariant. -/
lemma inv_empty : ∀ u, countActive u Ledger.empty ≤ 1 := by
  intro u
  simp [countActive, Ledger.empty]

/-- C1: for every user, after any sequence of sequential subscribe, cancel
and payment-reconciliation (webhook or payment-status-poll) operations, at
most one subscription row for that user has `active = true`; subscribe
refuses when an active subscription exists, and reconciliation cancels the
existing active subscription before creating the new one. -/
theorem C1_at_most_one_active_subscription :
    (∀ ops u, countActive u (runLifecycle ops Ledger.empty) ≤ 1)
    ∧ (∀ u p now l, (getActiveSubscriptionByUserId u l).isSome = true →
        subscribeOp u p now l = (.conflict, l))
    ∧ (∀ u p now l s, getActiveSubscriptionByUserId u l = some s →
        reconcilePaymentSuccess u p now l =
          match cancelSubscription s.id now l with
          | .error _ => l
          | .ok (_, l') => (createSubscription u p true now none l').2) := by
  refine ⟨fun ops u => inv_runLifecycle ops Ledger.empty inv_empty u, ?_, ?_⟩
  · intro u p now l h
    obtain ⟨s, hs⟩ := Option.isSome_iff_exists.mp h
    simp [subscribeOp, hs]
  · intro u p now l s hs
    simp [reconcilePaymentSuccess, hs]

/-- Concrete check of `C1_at_most_one_active_subscription`: with an active
subscription already on file for user 7, a second subscribe is refused. -/
theorem C1_at_most_one_active_subscription_witness :
    subscribeOp 7 "pro" 5
      { subs := [{ id := 1, userId := 7, plan := "standard", active := true,
                   startDate := 0, endDate := none }], nextId := 2 }
      = (.conflict,
         { subs := [{ id := 1, userId := 7, plan := "standard", active := true,
                      startDate := 0, endDate := none }], nextId := 2 }) :=
  C1_at_most_one_active_subscription.2.1 7 "pro" 5 _ (by decide)

/-- One reconciliation leaves exactly the freshly created row active for the
user, and bumps the id counter by one. -/
lemma reconcile_filter_active (u : Nat) (p : String) (now : Nat) (l : Ledger)
    (h : countActive u l ≤ 1) :
    (reconcilePaymentSuccess u p now l).subs.filter (activeFor u)
      = [{ id := l.nextId, userId := u, plan := p, active := true,
           startDate := now, endDate := none }]
    ∧ (reconcilePaymentSuccess u p now l).nextId = l.nextId + 1 := by
  cases hf : getActiveSubscriptionByUserId u l with
  | none =>
    have h0 : countActive u l = 0 := countActive_eq_zero_of_find_none hf
    rw [countActive_def] at h0
    have hnil := List.length_eq_zero.mp h0
    simp only [reconcilePaymentSuccess, hf]
    constructor
    · simp [createSubscription, List.filter_append, hnil, activeFor]
    · simp [createSubscription]
  | some s =>
    have hmem : s ∈ l.subs := List.mem_of_find?_eq_some hf
    have hact : activeFor u s = true := List.find?_some hf
    obtain ⟨s', l', hc⟩ := @cancelSubscription_isOk_of_mem s.id now l s hmem rfl
    have hhit := countActive_deactivateById_hit u s.id now l.subs s hmem rfl hact
    have h1 : 1 ≤ countActive u l := countActive_pos_of_find_some hf
    have h0 : ((deactivateById s.id now l.subs).filter (activeFor u)).length = 0 := by
      rw [countActive_def] at h h1
      omega
    have hnil := List.length_eq_zero.mp h0
    have hl' := cancelSubscription_ok_eq hc
    simp only [reconcilePaymentSuccess, hf, hc]
    subst hl'
    constructor
    · simp [createSubscription, List.filter_append, hnil, activeFor]
    · simp [createSubscription]

/-- C2: delivering the same `payment_intent.succeeded` event twice for a
user leaves exactly one active subscription for that user — the second
delivery cancels the subscription created by the first and creates a
replacement (the unique active row is the one created by the second
delivery, with the next AUTOINCREMENT id). -/
theorem C2_webhook_double_delivery (u : Nat) (p : String) (now1 now2 : Nat)
    (l : Ledger) (h : countActive u l ≤ 1) :
    countActive u
        (reconcilePaymentSuccess u p now2 (reconcilePaymentSuccess u p now1 l)) = 1
    ∧ (reconcilePaymentSuccess u p now2
          (reconcilePaymentSuccess u p now1 l)).subs.filter (activeFor u)
      = [{ id := l.nextId + 1, userId := u, plan := p, active := true,
           startDate := now2, endDate := none }] := by
  obtain ⟨hf1, hn1⟩ := reconcile_filter_active u p now1 l h
  have h1 : countActive u (reconcilePaymentSuccess u p now1 l) ≤ 1 := by
    rw [countActive_def, hf1]
    simp
  obtain ⟨hf2, hn2⟩ := reconcile_filter_active u p now2 _ h1
  refine ⟨?_, ?_⟩
  · rw [countActive_def, hf2]
    simp
  · rw [hf2, hn1]

/-- Concrete check of `C2_webhook_double_delivery` on the empty ledger. -/
theorem C2_webhook_double_delivery_witness :
    countActive 3 (reconcilePaymentSuccess 3 "standard" 20
      (reconcilePaymentSuccess 3 "standard" 10 Ledger.empty)) = 1 :=
  (C2_webhook_double_delivery 3 "standard" 10 20 Ledger.empty (by decide)).1

/-! ## Rate limiter (middleware.ts `rateLimit`) -/

/-- One entry of the `requestCounts` map in middleware.ts. -/
structure RateEntry where
  count : Nat
  resetTime : Nat
  deriving DecidableEq, Repr

/-- middleware.ts `const oneMinute = 60 * 1000` (milliseconds). -/
def oneMinute : Nat := 60 * 1000

/-- Decision of the `rateLimit` middleware: call `next()` or answer 429
with the `resetInSeconds` retry hint. -/
inductive RateDecision where
  | allowed
  | reject (resetInSeconds : Nat)
  deriving DecidableEq, Repr

/-- middleware.ts `rateLimit`, per authenticated identity.  (The leading
`if (!req.user) return 401` guard is not modelled: the function is stated
for an authenticated identity, which is the case the claims quantify over;
`rateLimit` is mounted behind `authenticate` on the protected router.)
`Math.ceil((resetTime - now) / 1000)` is taken in the branch where
`now ≤ resetTime`, where it equals `(resetTime - now + 999) / 1000` over
naturals. -/
def rateLimit (userId now : Nat) (requestCounts : Nat → Option RateEntry) :
    RateDecision × (Nat → Option RateEntry) :=
  match requestCounts userId with
  | none =>
      (.allowed, fun k => if k = userId then
          some { count := 1, resetTime := now + oneMinute } else requestCounts k)
  | some userRateLimit =>
      if now > userRateLimit.resetTime then
        (.allowed, fun k => if k = userId then
            some { count := 1, resetTime := now + oneMinute } else requestCounts k)
      else if userRateLimit.count ≥ 10 then
        (.reject ((userRateLimit.resetTime - now + 999) / 1000), requestCounts)
      else
        (.allowed, fun k => if k = userId then
            some { count := userRateLimit.count + 1, resetTime := userRateLimit.resetTime }
          else requestCounts k)

/-- Run `rateLimit` over a sequence of request times from one identity,
collecting the decisions. -/
def runRateLimit (userId : Nat) :
    List Nat → (Nat → Option RateEntry) →
      List RateDecision × (Nat → Option RateEntry)
  | [], m => ([], m)
  | t :: ts, m =>
      let step := rateLimit userId t m
      let rest := runRateLimit userId ts step.2
      (step.1 :: rest.1, rest.2)

/-- Expected decision sequence inside one window: starting from a counter
value `c`, each request is admitted while the counter is below 10 and
rejected with the seconds-until-reset hint afterwards. -/
def windowSpec (r : Nat) : Nat → List Nat → List RateDecision
  | _, [] => []
  | c, t :: ts =>
      if c < 10 then .allowed :: windowSpec r (c + 1) ts
      else .reject ((r - t + 999) / 1000) :: windowSpec r c ts

/-- Within the window (no request time beyond `resetTime`), the decisions
follow `windowSpec` from the current counter value. -/
lemma runRateLimit_window (u r : Nat) :
    ∀ (ts : List Nat) (c : Nat) (m : Nat → Option RateEntry),
      m u = some { count := c, resetTime := r } → (∀ t ∈ ts, t ≤ r) →
      (runRateLimit u ts m).1 = windowSpec r c ts := by
  intro ts
  induction ts with
  | nil => intro c m _ _; rfl
  | cons t ts ih =>
    intro c m hm hts
    have hle : t ≤ r := hts t (List.mem_cons_self t ts)
    have hnr : ¬ t > r := by omega
    by_cases hc : c ≥ 10
    · have hc' : ¬ c < 10 := by omega
      simp only [runRateLimit, rateLimit, hm, if_neg hnr, if_pos hc, windowSpec,
        if_neg hc']
      exact congrArg (List.cons _)
        (ih c m hm (fun x hx => hts x (List.mem_cons_of_mem t hx)))
    · have hc' : c < 10 := by omega
      simp only [runRateLimit, rateLimit, hm, if_neg hnr, if_neg hc, windowSpec,
        if_pos hc']
      exact congrArg (List.cons _)
        (ih (c + 1) _ (by simp) (fun x hx => hts x (List.mem_cons_of_mem t hx)))

/-- Positional reading of `windowSpec`. -/
lemma windowSpec_getElem? (r : Nat) :
    ∀ (ts : List Nat) (c i t : Nat), ts[i]? = some t →
      (windowSpec r c ts)[i]?
        = some (if c + i < 10 then .allowed else .reject ((r - t + 999) / 1000)) := by
  intro ts
  induction ts with
  | nil => intro c i t h; simp at h
  | cons x xs ih =>
    intro c i t h
    cases i with
    | zero =>
      simp at h
      subst h
      by_cases hc : c < 10 <;> simp [windowSpec, hc]
    | succ j =>
      simp only [List.getElem?_cons_succ] at h
      by_cases hc : c < 10
      · simp only [windowSpec, hc, if_true, List.getElem?_cons_succ]
        rw [ih (c + 1) j t h]
        have : c + 1 + j = c + (j + 1) := by omega
        rw [this]
      · simp only [windowSpec, hc, if_false, List.getElem?_cons_succ]
        rw [ih c j t h]
        have h1 : ¬ c + j < 10 := by omega
        have h2 : ¬ c + (j + 1) < 10 := by omega
        simp [h1, h2]

/-- C3: for every identity, the first request creates the window with
count 1 and is admitted; the first 10 requests arriving within one 60-unit
window are exactly the admitted ones, later requests in the same window are
rejected with the `ceil((resetTime - now) / 1000)` seconds-until-reset
retry hint; and on the first request after the window has expired the
counter is reset to 1 and the request is admitted. -/
theorem C3_rate_limiter_boundary :
    (∀ u t0 m, m u = none →
      rateLimit u t0 m
        = (.allowed, fun k => if k = u then
            some { count := 1, resetTime := t0 + oneMinute } else m k))
    ∧ (∀ u t0 ts m, m u = none → (∀ t ∈ ts, t ≤ t0 + oneMinute) →
        ∀ i t, (t0 :: ts)[i]? = some t →
          (runRateLimit u (t0 :: ts) m).1[i]?
            = some (if i < 10 then .allowed
                    else .reject ((t0 + oneMinute - t + 999) / 1000)))
    ∧ (∀ u now m e, m u = some e → now > e.resetTime →
        rateLimit u now m
          = (.allowed, fun k => if k = u then
              some { count := 1, resetTime := now + oneMinute } else m k)) := by
  refine ⟨?_, ?_, ?_⟩
  · intro u t0 m hm
    simp only [rateLimit, hm]
  · intro u t0 ts m hm hts i t hit
    have hfirst : rateLimit u t0 m
        = (.allowed, fun k => if k = u then
            some { count := 1, resetTime := t0 + oneMinute } else m k) := by
      simp only [rateLimit, hm]
    have hrest : (runRateLimit u ts (rateLimit u t0 m).2).1
        = windowSpec (t0 + oneMinute) 1 ts := by
      refine runRateLimit_window u (t0 + oneMinute) ts 1 _ ?_ hts
      rw [hfirst]
      simp
    have hdec : (runRateLimit u (t0 :: ts) m).1
        = .allowed :: windowSpec (t0 + oneMinute) 1 ts := by
      simp only [runRateLimit]
      rw [hrest, hfirst]
    rw [hdec]
    cases i with
    | zero => simp
    | succ j =>
      simp only [List.getElem?_cons_succ] at hit ⊢
      rw [windowSpec_getElem? (t0 + oneMinute) ts 1 j t hit]
      have : 1 + j < 10 ↔ j + 1 < 10 := by omega
      by_cases hj : j + 1 < 10
      · simp [hj, this.mpr hj]
      · have : ¬ 1 + j < 10 := by omega
        simp [hj, this]
  · intro u now m e hm hgt
    simp only [rateLimit, hm, if_pos hgt]

/-- Concrete check of `C3_rate_limiter_boundary`: twelve requests at times
0..11 ms from identity 1; the 11th request (index 10, at 10 ms) is rejected
with a 60-second retry hint. -/
theorem C3_rate_limiter_boundary_witness :
    (runRateLimit 1 [0, 1, 2, 3, 4, 5, 6, 7, 8, 9, 10, 11]
        (fun _ => none)).1[10]? = some (.reject 60) := by
  have h := C3_rate_limiter_boundary.2.1 1 0 [1, 2, 3, 4, 5, 6, 7, 8, 9, 10, 11]
    (fun _ => none) rfl (by decide) 10 10 (by decide)
  simpa using h

/-! ## Token service (auth.ts) and credential store (storage.ts users) -/

/-- The claim set auth.ts `generateToken` signs:
`{ id, username, email, role }`. -/
structure Claims where
  id : Nat
  username : String
  email : String
  role : String
  deriving DecidableEq, Repr

/-- A signed JWT in the symbolic-signature model: the payload plus the
`iat`/`exp` pair jsonwebtoken derives from `expiresIn`, plus the signing
secret's identity in place of the HMAC (a token verifies against a secret
iff it was signed with that same secret; forgery is outside the model). -/
structure SignedToken where
  claims : Claims
  iat : Nat
  exp : Nat
  sig : String
  deriving DecidableEq, Repr

/-- A raw bearer-token string: either no well-formed signed token at all,
or a signed token. -/
inductive RawToken where
  | malformed
  | signed (t : SignedToken)
  deriving DecidableEq, Repr

/-- auth.ts `JWT_EXPIRES_IN = '24h'`, in seconds as jsonwebtoken encodes it. -/
def jwtExpiresInSeconds : Nat := 24 * 60 * 60

/-- auth.ts `generateToken`: sign `{id, username, email, role}` with the
server secret and a 24h expiry. -/
def generateToken (user : Claims) (secret : String) (iat : Nat) : SignedToken :=
  { claims := user, iat := iat, exp := iat + jwtExpiresInSeconds, sig := secret }

/-- jsonwebtoken verification failures distinguished by the library
(`JsonWebTokenError` for malformed/bad signature, `TokenExpiredError`). -/
inductive JwtError where
  | invalid
  | expired
  deriving DecidableEq, Repr

/-- jsonwebtoken `jwt.verify(token, secret)` at clock `now`: rejects a
malformed token or a signature made with a different secret, then throws
`TokenExpiredError` when `now ≥ exp`, else returns the embedded payload. -/
def jwtVerify (raw : RawToken) (secret : String) (now : Nat) : Except JwtError Claims :=
  match raw with
  | .malformed => .error .invalid
  | .signed t =>
      if t.sig ≠ secret then .error .invalid
      else if now ≥ t.exp then .error .expired
      else .ok t.claims

/-- A row of the `users` table (storage.ts), as returned by `getUser`. -/
structure UserRec where
  id : Nat
  username : String
  email : String
  name : String
  password : String
  role : String
  deriving DecidableEq, Repr

/-- storage.ts `getUser`: `SELECT * FROM users WHERE id = ?`. -/
def getUser (id : Nat) (store : List UserRec) : Option UserRec :=
  store.find? (fun u => decide (u.id = id))

/-- Shape of the `Authorization` header as auth.ts `authenticate` examines
it: absent, present but not starting with `Bearer `, `Bearer` with an empty
token after `split(' ')`, or `Bearer <token>`. -/
inductive AuthHeader where
  | missing
  | notBearer
  | bearerEmpty
  | bearer (raw : RawToken)
  deriving DecidableEq, Repr

/-- 401 outcomes of auth.ts `authenticate`, by response message. -/
inductive AuthFail where
  /-- `Authentication required` -/
  | required
  /-- `Authentication token missing` -/
  | tokenMissing
  /-- `Invalid authentication token` (thrown verify, or unknown user id) -/
  | invalidToken
  deriving DecidableEq, Repr

/-- auth.ts `authenticate`: header checks, `jwt.verify`, then a fresh
`storage.getUser(decoded.id)` lookup; `req.user` is populated from the
STORE row (`user.id`, `user.username`, `user.email`, `user.role`), not from
the decoded claims. -/
def authenticate (h : AuthHeader) (secret : String) (now : Nat)
    (store : List UserRec) : Except AuthFail Claims :=
  match h with
  | .missing => .error .required
  | .notBearer => .error .required
  | .bearerEmpty => .error .tokenMissing
  | .bearer raw =>
      match jwtVerify raw secret now with
      | .error _ => .error .invalidToken
      | .ok decoded =>
          match getUser decoded.id store with
          | none => .error .invalidToken
          | some user =>
              .ok { id := user.id, username := user.username,
                    email := user.email, role := user.role }

/-- C5: for every valid identity, verifying a token issued for that
identity before the expiry time returns the same claim set
`{id, username, email, role}`, and verifying it once the clock passes
`issuedAt + 24h` fails with `TokenExpiredError`. -/
theorem C5_token_round_trip (user : Claims) (secret : String) (iat now : Nat) :
    (now < iat + jwtExpiresInSeconds →
      jwtVerify (.signed (generateToken user secret iat)) secret now = .ok user)
    ∧ (now > iat + jwtExpiresInSeconds →
      jwtVerify (.signed (generateToken user secret iat)) secret now
        = .error .expired) := by
  constructor
  · intro h
    have h2 : ¬ now ≥ iat + jwtExpiresInSeconds := by omega
    simp [jwtVerify, generateToken, h2]
  · intro h
    have h2 : now ≥ iat + jwtExpiresInSeconds := by omega
    simp [jwtVerify, generateToken, h2]

/-- Concrete check of `C5_token_round_trip` for the seeded admin identity:
success at 100 s, expiry error at 24h + 1 s. -/
theorem C5_token_round_trip_witness :
    jwtVerify (.signed (generateToken
        { id := 1, username := "admin", email := "admin@finconnect.com",
          role := "admin" } "finconnect_secret_key" 0))
      "finconnect_secret_key" 100
      = .ok { id := 1, username := "admin", email := "admin@finconnect.com",
              role := "admin" }
    ∧ jwtVerify (.signed (generateToken
        { id := 1, username := "admin", email := "admin@finconnect.com",
          role := "admin" } "finconnect_secret_key" 0))
      "finconnect_secret_key" 86401
      = .error .expired :=
  ⟨(C5_token_round_trip
      { id := 1, username := "admin", email := "admin@finconnect.com",
        role := "admin" } "finconnect_secret_key" 0 100).1 (by decide),
   (C5_token_round_trip
      { id := 1, username := "admin", email := "admin@finconnect.com",
        role := "admin" } "finconnect_secret_key" 0 86401).2 (by decide)⟩

/-- Refutation of C6 at a concrete input: the same validly signed,
unexpired token gives different verification outcomes in two runs that
differ only in the Credential Store's contents — success when the user row
exists, 401 when it was deleted, and the attached role follows the store
(not the token) when the role was changed.  `authenticate` re-looks the
user up on every call. -/
theorem C6_stateless_verification_counterexample :
    authenticate
        (.bearer (.signed (generateToken
          { id := 1, username := "admin", email := "admin@finconnect.com",
            role := "admin" } "finconnect_secret_key" 0)))
        "finconnect_secret_key" 100
        [{ id := 1, username := "admin", email := "admin@finconnect.com",
           name := "Admin User", password := "h", role := "admin" }]
      = .ok { id := 1, username := "admin", email := "admin@finconnect.com",
              role := "admin" }
    ∧ authenticate
        (.bearer (.signed (generateToken
          { id := 1, username := "admin", email := "admin@finconnect.com",
            role := "admin" } "finconnect_secret_key" 0)))
        "finconnect_secret_key" 100 []
      = .error .invalidToken
    ∧ authenticate
        (.bearer (.signed (generateToken
          { id := 1, username := "admin", email := "admin@finconnect.com",
            role := "admin" } "finconnect_secret_key" 0)))
        "finconnect_secret_key" 100
        [{ id := 1, username := "admin", email := "admin@finconnect.com",
           name := "Admin User", password := "h", role := "developer" }]
      = .ok { id := 1, username := "admin", email := "admin@finconnect.com",
              role := "developer" } :=
  ⟨rfl, rfl, rfl⟩

/-- C6 as amended: signature and expiry checking are stateless, but
`authenticate` then performs a Credential Store lookup of the decoded id:
with the user present it succeeds and attaches the STORE row's
`{id, username, email, role}`; with the user absent (e.g. deleted) it
fails with 401 `Invalid authentication token`, so the outcome does depend
on the Credential Store's contents. -/
theorem C6_authenticate_relookup (t : SignedToken) (secret : String)
    (now : Nat) (store : List UserRec) :
    t.sig = secret → now < t.exp →
    (∀ user, getUser t.claims.id store = some user →
      authenticate (.bearer (.signed t)) secret now store
        = .ok { id := user.id, username := user.username,
                email := user.email, role := user.role })
    ∧ (getUser t.claims.id store = none →
      authenticate (.bearer (.signed t)) secret now store
        = .error .invalidToken) := by
  intro hsig hexp
  have hne : ¬ t.sig ≠ secret := by simp [hsig]
  have hlt : ¬ now ≥ t.exp := by omega
  constructor
  · intro user hu
    simp [authenticate, jwtVerify, hne, hlt, hu]
  · intro hu
    simp [authenticate, jwtVerify, hne, hlt, hu]

/-- Concrete check of `C6_authenticate_relookup`: the deleted-user run of
the counterexample, derived from the amended theorem. -/
theorem C6_authenticate_relookup_witness :
    authenticate
        (.bearer (.signed (generateToken
          { id := 2, username := "developer", email := "developer@finconnect.com",
            role := "developer" } "finconnect_secret_key" 0)))
        "finconnect_secret_key" 50 []
      = .error .invalidToken :=
  (C6_authenticate_relookup
      (generateToken
        { id := 2, username := "developer", email := "developer@finconnect.com",
          role := "developer" } "finconnect_secret_key" 0)
      "finconnect_secret_key" 50 [] rfl (by decide)).2 rfl

/-! ## Access gate (middleware.ts `checkSubscription`) and router pipeline
(routes.ts `registerRoutes`) -/

/-- JS `String.prototype.startsWith` (and Lean's `String.startsWith`),
computed over the character list so that concrete instances reduce in the
kernel. -/
def strStartsWith (s pre : String) : Bool :=
  pre.data.isPrefixOf s.data

/-- middleware.ts `openPaths`: paths exempt from subscription enforcement. -/
def openPaths : List String :=
  ["/api/auth", "/api/pricing", "/api/create-payment-intent",
   "/api/check-payment-status", "/api/webhook", "/api/subscriptions/subscribe",
   "/api/subscriptions/active", "/api/user", "/pricing", "/auth", "/checkout",
   "/subscription-success"]

/-- Terminating outcomes of `checkSubscription`. -/
inductive MwOut where
  /-- `next()` -/
  | next
  /-- 401 JSON `Authentication required` -/
  | authRequired
  /-- `res.redirect(target)` -/
  | redirect (target : String)
  /-- 403 JSON `Subscription required ...` with `subscriptionRequired: true`
  and the machine-readable `redirectTo` hint -/
  | subRequired (redirectHint : String)
  deriving DecidableEq, Repr

/-- middleware.ts `checkSubscription`, a function of the request path (as
Express presents it where the middleware is mounted), the `req.user` slot,
the `bypass=true` query flag, and the subscription ledger.  The second
component records whether `storage.getActiveSubscriptionByUserId` was
called (the "subscription check").  The `req.url` cleanup inside the
bypass branch only rewrites the forwarded URL and is not modelled. -/
def checkSubscription (path : String) (user : Option Claims) (bypassQ : Bool)
    (l : Ledger) : MwOut × Bool :=
  if openPaths.any (fun openPath => strStartsWith path openPath || path == openPath) then
    (.next, false)
  else
    match user with
    | none =>
        if strStartsWith path "/api/" then (.authRequired, false)
        else (.redirect "/auth", false)
    | some u =>
        if u.role = "admin" then (.next, false)
        else
          let isDashboardRoute := strStartsWith path "/dashboard" ||
            ["/balance", "/transfer", "/transactions", "/invoice",
             "/subscription"].contains path
          let isProtectedApiEndpoint := strStartsWith path "/api/" &&
            !(openPaths.any (fun p => strStartsWith path p))
          if isDashboardRoute || isProtectedApiEndpoint then
            if !(strStartsWith path "/api/") && bypassQ then (.next, false)
            else
              match getActiveSubscriptionByUserId u.id l with
              | none =>
                  if strStartsWith path "/api/" then (.subRequired "/pricing", true)
                  else (.redirect "/pricing", true)
              | some _ => (.next, true)
          else (.next, false)

/-- `metadata` of a Stripe payment intent as the handlers read it.
`userId` carries the value of `parseInt(metadata.userId)` for a decimal
numeral string (`none` = field absent or empty, which is falsy in the
`if (!userId || !planId)` guard; non-numeric strings, whose `parseInt` is
`NaN`, are outside the claims' scope). -/
structure PIMetadata where
  userId : Option Nat
  planId : Option String
  planName : Option String
  deriving DecidableEq, Repr

/-- The `data.object` payment-intent payload of a webhook event. -/
structure PaymentIntentObj where
  id : String
  status : String
  amount : Nat
  metadata : PIMetadata
  deriving DecidableEq, Repr

/-- `data` of a webhook event. -/
structure EventData where
  object : PaymentIntentObj
  deriving DecidableEq, Repr

/-- A parsed webhook body: `{type, data}`.  `data` is optional because the
endpoint accepts arbitrary JSON; `event.data.object` on a missing `data`
throws a TypeError that escapes to the handler's outer catch. -/
structure WebhookEvent where
  type : String
  data : Option EventData
  deriving DecidableEq, Repr

/-- Webhook endpoint responses. -/
inductive WebhookResp where
  /-- 200 `{received: true}` -/
  | ack
  /-- 400 `Webhook Error: ...` (outer catch) -/
  | badRequest
  deriving DecidableEq, Repr

/-- routes.ts `POST /api/webhook`: only `payment_intent.succeeded` triggers
reconciliation; the inner try swallows missing-metadata and storage errors
and still acknowledges; reading `event.data.object` off an event without
`data` throws outside the inner try, reaching the outer catch (400). -/
def webhookHandler (event : WebhookEvent) (now : Nat) (l : Ledger) :
    WebhookResp × Ledger :=
  if event.type = "payment_intent.succeeded" then
    match event.data with
    | none => (.badRequest, l)
    | some d =>
        match d.object.metadata.userId, d.object.metadata.planId with
        | some userId, some planId =>
            (.ack, reconcilePaymentSuccess userId planId now l)
        | _, _ => (.ack, l)
  else (.ack, l)

/-- A request as it enters the `/api` router.  `apiPath` is `req.path` as
the router's middleware sees it: Express strips the `/api` mount prefix
from `req.url` when dispatching into a router mounted with
`app.use("/api", apiRouter)`, so a request to `/api/transfer` has
`apiPath = "/transfer"` here. -/
structure ApiRequest where
  method : String
  apiPath : String
  header : AuthHeader
  bypassQ : Bool
  event : WebhookEvent
  deriving DecidableEq, Repr

/-- The routes routes.ts registers on `apiRouter` BEFORE
`apiRouter.use(checkSubscription)`, in registration order; Express matches
`router.METHOD(path, ...)` by exact path. -/
def preRoutes : List (String × String) :=
  [("POST", "/create-payment-intent"), ("GET", "/check-payment-status"),
   ("POST", "/webhook"), ("POST", "/auth/register"), ("POST", "/auth/login"),
   ("GET", "/user"), ("GET", "/auth/status"), ("POST", "/subscriptions/subscribe"),
   ("GET", "/subscriptions/active"), ("POST", "/subscriptions/cancel")]

/-- The routes on `protectedRouter`, registered after
`protectedRouter.use(authenticate, logRequest, rateLimit)`. -/
def protectedRoutes : List (String × String) :=
  [("GET", "/balance"), ("POST", "/transfer"), ("GET", "/transactions"),
   ("GET", "/invoice")]

/-- Outcome of dispatching one request through `apiRouter`. -/
inductive DispatchOut where
  /-- the request reached the named pre-gate route handler (whose internals
  are modelled separately where a claim needs them) -/
  | handledBy (route : String)
  /-- the webhook handler answered -/
  | webhookResp (r : WebhookResp)
  /-- `checkSubscription` terminated the request -/
  | gate (m : MwOut)
  /-- `authenticate` on the protected router terminated the request -/
  | authFail (e : AuthFail)
  /-- `rateLimit` terminated the request (seconds-until-reset hint) -/
  | rateLimited (resetInSeconds : Nat)
  /-- admitted to the named protected route handler -/
  | protectedRoute (route : String)
  /-- fell through every layer modelled here (the admin sub-router,
  registered after `protectedRouter`, is not reached by any input the
  claims quantify over) -/
  | notFound
  deriving DecidableEq, Repr

/-- The `apiRouter` middleware/route chain of routes.ts in registration
order: pre-gate routes (webhook run concretely, others tagged), then
`checkSubscription` — at which point no earlier middleware on this chain
has assigned `req.user` — then `authenticate`, `logRequest` (no effect on
the outcome) and `rateLimit` on the protected router, then the protected
routes.  Returns the outcome, the resulting subscription ledger, and
whether the gate queried the ledger. -/
def apiDispatch (req : ApiRequest) (secret : String) (now : Nat)
    (store : List UserRec) (l : Ledger) (rl : Nat → Option RateEntry) :
    DispatchOut × Ledger × Bool :=
  if req.method = "POST" ∧ req.apiPath = "/webhook" then
    let step := webhookHandler req.event now l
    (.webhookResp step.1, step.2, false)
  else if preRoutes.contains (req.method, req.apiPath) then
    (.handledBy req.apiPath, l, false)
  else
    match checkSubscription req.apiPath none req.bypassQ l with
    | (.next, q) =>
        match authenticate req.header secret now store with
        | .error e => (.authFail e, l, q)
        | .ok u =>
            match (rateLimit u.id now rl).1 with
            | .reject s => (.rateLimited s, l, q)
            | .allowed =>
                if protectedRoutes.contains (req.method, req.apiPath) then
                  (.protectedRoute req.apiPath, l, q)
                else (.notFound, l, q)
    | (m, q) => (.gate m, l, q)

/-- C4, as the code behaves: (i) a request to `/api/auth/login` is handled
by the login route registered before `checkSubscription`, so no
subscription check runs for any authentication state, any ledger and any
body; (ii) the C4 failing input — POST `/api/transfer` with a valid
non-admin bearer token and an empty subscription ledger — is answered by
`checkSubscription` with a 302 redirect to `/auth` (the gate runs before
`authenticate`, so `req.user` is unset, and the mount-relative path
`/transfer` is not an `/api/` path), never with the 403
`SubscriptionRequired` body the claim states. -/
theorem C4_login_exempt_transfer_redirected :
    (∀ (h : AuthHeader) (b : Bool) (ev : WebhookEvent) (secret : String)
        (now : Nat) (store : List UserRec) (l : Ledger)
        (rl : Nat → Option RateEntry),
      apiDispatch { method := "POST", apiPath := "/auth/login", header := h,
                    bypassQ := b, event := ev } secret now store l rl
        = (.handledBy "/auth/login", l, false))
    ∧ apiDispatch
        { method := "POST", apiPath := "/transfer",
          header := .bearer (.signed (generateToken
            { id := 2, username := "developer",
              email := "developer@finconnect.com", role := "developer" }
            "finconnect_secret_key" 0)),
          bypassQ := false, event := { type := "none", data := none } }
        "finconnect_secret_key" 100
        [{ id := 2, username := "developer", email := "developer@finconnect.com",
           name := "Developer User", password := "h", role := "developer" }]
        Ledger.empty (fun _ => none)
      = (.gate (.redirect "/auth"), Ledger.empty, false) :=
  ⟨fun _ _ _ _ _ _ _ _ => rfl, rfl⟩

/-- C9, as the code behaves: (i) the `checkSubscription` function itself
does bypass the ledger check unconditionally when invoked with an
authenticated admin user attached (for every path, bypass flag and
ledger it calls `next()` without querying); but (ii) in the deployed
router order `req.user` is never populated before `checkSubscription`, so
the C9 failing input — GET `/api/balance` with a valid admin bearer token
and zero subscriptions — is redirected to `/auth` instead of admitted. -/
theorem C9_admin_bypass_unreachable :
    (∀ (i : Nat) (un em path : String) (b : Bool) (l : Ledger),
      checkSubscription path
          (some { id := i, username := un, email := em, role := "admin" }) b l
        = (.next, false))
    ∧ apiDispatch
        { method := "GET", apiPath := "/balance",
          header := .bearer (.signed (generateToken
            { id := 1, username := "admin", email := "admin@finconnect.com",
              role := "admin" } "finconnect_secret_key" 0)),
          bypassQ := false, event := { type := "none", data := none } }
        "finconnect_secret_key" 100
        [{ id := 1, username := "admin", email := "admin@finconnect.com",
           name := "Admin User", password := "h", role := "admin" }]
        Ledger.empty (fun _ => none)
      = (.gate (.redirect "/auth"), Ledger.empty, false) := by
  constructor
  · intro i un em path b l
    by_cases h : (openPaths.any fun openPath =>
        path.startsWith openPath || path == openPath) = true
    · simp [checkSubscription, h]
    · simp [checkSubscription, h]
  · rfl

/-- Refutation of C8 at a concrete input: a delivery whose body parses to
`{type: "payment_intent.succeeded"}` without a `data` object makes the
handler throw outside the inner try (`event.data.object`), and the outer
catch answers 400 `Webhook Error`, not `{received: true}`. -/
theorem C8_ack_always_counterexample :
    webhookHandler { type := "payment_intent.succeeded", data := none } 0
        Ledger.empty
      = (.badRequest, Ledger.empty)
    ∧ WebhookResp.badRequest ≠ WebhookResp.ack :=
  ⟨rfl, by decide⟩

/-- C8 as amended: every event whose type is not
`payment_intent.succeeded` is acknowledged `{received: true}` with no
ledger mutation; every `payment_intent.succeeded` delivery carrying a
`data` object is acknowledged `{received: true}` even when the internal
reconciliation fails (missing metadata — and storage failures are likewise
swallowed inside `reconcilePaymentSuccess`), with missing metadata leaving
the ledger untouched.  Only a delivery malformed enough to throw outside
the inner try (no `data` object) is answered 400. -/
theorem C8_webhook_acknowledgment (event : WebhookEvent) (now : Nat) (l : Ledger) :
    (event.type ≠ "payment_intent.succeeded" →
      webhookHandler event now l = (.ack, l))
    ∧ (∀ d, event.data = some d → (webhookHandler event now l).1 = .ack)
    ∧ (∀ d, event.data = some d →
        d.object.metadata.userId = none ∨ d.object.metadata.planId = none →
        webhookHandler event now l = (.ack, l)) := by
  refine ⟨fun h => by simp [webhookHandler, h], ?_, ?_⟩
  · intro d hd
    by_cases ht : event.type = "payment_intent.succeeded"
    · cases hu : d.object.metadata.userId <;> cases hp : d.object.metadata.planId <;>
        simp [webhookHandler, ht, hd, hu, hp]
    · simp [webhookHandler, ht]
  · intro d hd hmiss
    by_cases ht : event.type = "payment_intent.succeeded"
    · rcases hmiss with hm | hm
      · cases hp : d.object.metadata.planId <;>
          simp [webhookHandler, ht, hd, hm, hp]
      · cases hu : d.object.metadata.userId <;>
          simp [webhookHandler, ht, hd, hm, hu]
    · simp [webhookHandler, ht]

/-- Concrete check of `C8_webhook_acknowledgment`: a `charge.refunded`
event is acknowledged without touching the ledger. -/
theorem C8_webhook_acknowledgment_witness :
    webhookHandler { type := "charge.refunded", data := none } 5 Ledger.empty
      = (.ack, Ledger.empty) :=
  (C8_webhook_acknowledgment { type := "charge.refunded", data := none } 5
    Ledger.empty).1 (by decide)

/-- C10: the webhook route is registered without `authenticate` and before
`checkSubscription`, so (i) dispatching a POST `/api/webhook` request gives
identical results for any two Authorization headers (and bypass flags) —
no authentication and no signature verification; and (ii) for every
delivery whose body parses to a `payment_intent.succeeded` event whose
metadata carries a userId and planId, the handler's ledger effect is
exactly `reconcilePaymentSuccess`: it cancels the user's existing active
subscription (if any) and creates a new active subscription, which is then
the user's only active row when the invariant held before. -/
theorem C10_webhook_no_auth_reconciles :
    (∀ (h1 h2 : AuthHeader) (b1 b2 : Bool) (ev : WebhookEvent)
        (secret : String) (now : Nat) (store : List UserRec) (l : Ledger)
        (rl : Nat → Option RateEntry),
      apiDispatch { method := "POST", apiPath := "/webhook", header := h1,
                    bypassQ := b1, event := ev } secret now store l rl
        = apiDispatch { method := "POST", apiPath := "/webhook", header := h2,
                        bypassQ := b2, event := ev } secret now store l rl)
    ∧ (∀ (ev : WebhookEvent) (d : EventData) (u : Nat) (p : String)
        (now : Nat) (l : Ledger),
        ev.type = "payment_intent.succeeded" → ev.data = some d →
        d.object.metadata.userId = some u → d.object.metadata.planId = some p →
        (webhookHandler ev now l).2 = reconcilePaymentSuccess u p now l
        ∧ (countActive u l ≤ 1 →
            (webhookHandler ev now l).2.subs.filter (activeFor u)
              = [{ id := l.nextId, userId := u, plan := p, active := true,
                   startDate := now, endDate := none }])) := by
  constructor
  · intro h1 h2 b1 b2 ev secret now store l rl
    rfl
  · intro ev d u p now l ht hd hu hp
    have heq : (webhookHandler ev now l).2 = reconcilePaymentSuccess u p now l := by
      simp [webhookHandler, ht, hd, hu, hp]
    refine ⟨heq, fun hinv => ?_⟩
    rw [heq]
    exact (reconcile_filter_active u p now l hinv).1

/-- Concrete check of `C10_webhook_no_auth_reconciles`: a succeeded event
for user 5 on the empty ledger leaves exactly the new row active. -/
theorem C10_webhook_no_auth_reconciles_witness :
    (webhookHandler
        { type := "payment_intent.succeeded",
          data := some { object :=
            { id := "pi_1", status := "succeeded", amount := 4900,
              metadata := { userId := some 5, planId := some "standard",
                            planName := some "Standard" } } } }
        7 Ledger.empty).2.subs.filter (activeFor 5)
      = [{ id := 1, userId := 5, plan := "standard", active := true,
           startDate := 7, endDate := none }] :=
  ((C10_webhook_no_auth_reconciles.2
      { type := "payment_intent.succeeded",
        data := some { object :=
          { id := "pi_1", status := "succeeded", amount := 4900,
            metadata := { userId := some 5, planId := some "standard",
                          planName := some "Standard" } } } }
      { object :=
          { id := "pi_1", status := "succeeded", amount := 4900,
            metadata := { userId := some 5, planId := some "standard",
                          planName := some "Standard" } } }
      5 "standard" 7 Ledger.empty rfl rfl rfl rfl).2 (by decide))

/-! ## Transactions pagination (routes.ts `GET /transactions`,
storage.ts `getTransactionsByUserId`) -/

/-- A row of the `transactions` table.  `type` is `txType` (Lean keyword);
`amount` is an integer here (the column is REAL, but no claim depends on
fractional amounts). -/
structure Transaction where
  id : Nat
  userId : Nat
  txType : String
  amount : Int
  description : Option String
  status : String
  fromAccount : Option String
  toAccount : Option String
  createdAt : Nat
  deriving DecidableEq, Repr

/-- Insert into a list kept sorted by `created_at` descending. -/
def insertByCreatedDesc (t : Transaction) : List Transaction → List Transaction
  | [] => [t]
  | x :: xs =>
      if x.createdAt ≤ t.createdAt then t :: x :: xs
      else x :: insertByCreatedDesc t xs

/-- `ORDER BY created_at DESC` (the `MemStorage` twin sorts by
`b.createdAt - a.createdAt`). -/
def sortByCreatedDesc (ts : List Transaction) : List Transaction :=
  ts.foldr insertByCreatedDesc []

lemma length_insertByCreatedDesc (t : Transaction) :
    ∀ ts, (insertByCreatedDesc t ts).length = ts.length + 1 := by
  intro ts
  induction ts with
  | nil => rfl
  | cons x xs ih =>
    simp only [insertByCreatedDesc]
    split
    · rfl
    · simp [ih]

lemma length_sortByCreatedDesc :
    ∀ ts, (sortByCreatedDesc ts).length = ts.length := by
  intro ts
  induction ts with
  | nil => rfl
  | cons x xs ih =>
    simp only [sortByCreatedDesc, List.foldr_cons] at ih ⊢
    rw [length_insertByCreatedDesc, ih]
    rfl

/-- storage.ts `getTransactionsByUserId`: count the user's rows, then
`ORDER BY created_at DESC LIMIT pageSize OFFSET (page-1)*pageSize`. -/
def getTransactionsByUserId (userId page pageSize : Nat)
    (txs : List Transaction) : List Transaction × Nat :=
  let userTxs := txs.filter (fun t => decide (t.userId = userId))
  let total := userTxs.length
  (((sortByCreatedDesc userTxs).drop ((page - 1) * pageSize)).take pageSize, total)

/-- Response of the transactions endpoint with its pagination envelope. -/
inductive TxResponse where
  /-- 400 `Invalid pagination parameters` -/
  | badRequest
  /-- 200 `{data, pagination: {page, pageSize, total, totalPages}}` -/
  | ok (data : List Transaction) (page pageSize : Int) (total totalPages : Nat)
  deriving DecidableEq, Repr

/-- `parseInt(req.query.x as string) || d`: `parseInt` of an absent or
non-numeric parameter is `NaN` (here `none`) and `NaN || d` is `d`; the
numeral `"0"` parses to `0`, which is also falsy, so `0 || d` is `d` too. -/
def parseIntOr (q : Option Int) (d : Int) : Int :=
  match q with
  | none => d
  | some v => if v = 0 then d else v

/-- routes.ts `GET /transactions`: default/coerce the query parameters,
reject `page < 1 || pageSize < 1 || pageSize > 100`, else page through the
store; `totalPages = Math.ceil(total / pageSize)`, which over naturals
with `pageSize ≥ 1` is `(total + pageSize - 1) / pageSize`. -/
def transactionsHandler (qPage qPageSize : Option Int) (userId : Nat)
    (txs : List Transaction) : TxResponse :=
  let page := parseIntOr qPage 1
  let pageSize := parseIntOr qPageSize 10
  if page < 1 ∨ pageSize < 1 ∨ pageSize > 100 then .badRequest
  else
    let r := getTransactionsByUserId userId page.toNat pageSize.toNat txs
    .ok r.1 page pageSize r.2 ((r.2 + pageSize.toNat - 1) / pageSize.toNat)

/-- Refutation of C7 at concrete inputs: `page=0` and `pageSize=0` do NOT
yield the validation error — `parseInt("0")` is `0`, which is falsy, so the
`|| 1` / `|| 10` fallbacks replace it with the default and the request
succeeds with a 200 envelope. -/
theorem C7_zero_coerced_counterexample :
    transactionsHandler (some 0) none 1 [] = .ok [] 1 10 0 0
    ∧ transactionsHandler none (some 0) 1 [] = .ok [] 1 10 0 0
    ∧ .ok ([] : List Transaction) 1 10 0 0 ≠ TxResponse.badRequest :=
  ⟨rfl, rfl, by decide⟩

/-- C7 as amended: `pageSize=101` yields the validation error for every
page parameter; `page=0` and `pageSize=0` are falsy after `parseInt` and
are silently coerced to the defaults (1 and 10) by the `||` fallback, so
they behave exactly like omitted parameters and succeed; and `page=2,
pageSize=10` against 15 stored records returns exactly 5 records with
`totalPages = 2` in the envelope. -/
theorem C7_pagination_bounds (u : Nat) (txs : List Transaction) :
    (∀ qp, transactionsHandler qp (some 101) u txs = .badRequest)
    ∧ (∀ qps, transactionsHandler (some 0) qps u txs
        = transactionsHandler none qps u txs)
    ∧ (∀ qp, transactionsHandler qp (some 0) u txs
        = transactionsHandler qp none u txs)
    ∧ ((txs.filter (fun t => decide (t.userId = u))).length = 15 →
        ∃ data, transactionsHandler (some 2) (some 10) u txs
            = .ok data 2 10 15 2 ∧ data.length = 5) := by
  refine ⟨?_, fun qps => rfl, fun qp => rfl, ?_⟩
  · intro qp
    have hps : parseIntOr (some 101) 10 = 101 := rfl
    simp only [transactionsHandler, hps]
    rw [if_pos]
    exact Or.inr (Or.inr (by norm_num))
  · intro h15
    have hp : parseIntOr (some 2) 1 = 2 := rfl
    have hps : parseIntOr (some 10) 10 = 10 := rfl
    refine ⟨((sortByCreatedDesc
        (txs.filter (fun t => decide (t.userId = u)))).drop
          (((2 : Int).toNat - 1) * (10 : Int).toNat)).take (10 : Int).toNat,
      ?_, ?_⟩
    · simp only [transactionsHandler, hp, hps, getTransactionsByUserId]
      rw [if_neg (by norm_num)]
      rw [h15]
      norm_num
      decide
    · rw [List.length_take, List.length_drop, length_sortByCreatedDesc, h15]
      decide

/-- Concrete check of `C7_pagination_bounds` on 15 stored records for
user 1: page 2 with page size 10 returns 5 records and `totalPages = 2`,
and `pageSize=101` is rejected. -/
theorem C7_pagination_bounds_witness :
    (((List.range 15).map (fun i =>
        { id := i + 1, userId := 1, txType := "debit", amount := 1,
          description := none, status := "completed", fromAccount := none,
          toAccount := none, createdAt := i : Transaction })).filter
        (fun t => decide (t.userId = 1))).length = 15
    ∧ (∃ data, transactionsHandler (some 2) (some 10) 1
          ((List.range 15).map (fun i =>
            { id := i + 1, userId := 1, txType := "debit", amount := 1,
              description := none, status := "completed", fromAccount := none,
              toAccount := none, createdAt := i : Transaction }))
          = .ok data 2 10 15 2 ∧ data.length = 5)
    ∧ transactionsHandler (some 1) (some 101) 1 [] = .badRequest :=
  ⟨by decide,
   (C7_pagination_bounds 1 ((List.range 15).map (fun i =>
      { id := i + 1, userId := 1, txType := "debit", amount := 1,
        description := none, status := "completed", fromAccount := none,
        toAccount := none, createdAt := i : Transaction }))).2.2.2 (by decide),
   (C7_pagination_bounds 1 []).1 (some 1)⟩
